import Mathlib

/-!
Shallow embedding of the b4r-dev/devtools repository (4 Python source files),
centred on the binary-record-to-netCDF converter in `src/xffts2netcdf.py`
(class `Struct2NetCDF` and `main`), plus the observation-number utilities in
`src/rename-xffts.py` (`get_obsnum`, `rename`) and `src/create_symlinks.py`
(`create_symlink`'s obsnum extraction).

Modelling conventions:
- Python exceptions are `Except PyError` results; a `try/except` that returns a
  sentinel is a `match` on that result.
- Machine integers are `Int`/`Nat`; byte buffers are `List Nat` (one entry per
  byte, values 0..255; only lengths and the little-endian int64 decode matter
  to the properties proved here).
- The `struct` module's format strings (standard size mode, as selected by the
  `<` byte-order prefix the code always uses) are parsed by `fmtParse`, which
  returns the packed byte size and the number of unpacked leaf values.
- The netCDF library is modelled by the record of dimensions and variables the
  code creates (`NCDataset`) plus a trace of file-system operations (`FsOp`);
  library-internal validation (e.g. of negative dimension sizes) and the typed
  storage of leaf values into variables are outside the repository's code and
  are not modelled.  Variable assignment is modelled by its only failure mode
  visible in the source: exhausting the unpacked-value deque (`IndexError`).
-/

namespace Devtools

/-- A Python value that can occur inside a config tuple item:
a string, an int, or a tuple of ints (a shape). -/
inductive PyVal where
  | vstr (s : String)
  | vint (n : Int)
  | vtup (t : List Int)
  deriving DecidableEq, Repr

/-- The Python exceptions raised by the code under `src/`. -/
inductive PyError where
  | fileExistsError
  | valueError
  | assertionError
  | typeError
  | structError
  | eofError
  | indexError
  deriving DecidableEq, Repr

/-- NumPy dtypes produced by `Struct2NetCDF.convert_fmt_to_dtype`. -/
inductive NPDtype where
  | int32
  | int64
  | float32
  | float64
  | npstr
  | npbool
  deriving DecidableEq, Repr

/-! ### The `struct` module (standard size mode, `<` byte order) -/

/-- Packed byte size of one `struct` format character in standard (`<`) mode;
`none` for characters that are not format characters. -/
def charSize : Char → Option Nat
  | 'x' => some 1
  | 'c' => some 1
  | 'b' => some 1
  | 'B' => some 1
  | 's' => some 1
  | 'p' => some 1
  | '?' => some 1
  | 'h' => some 2
  | 'H' => some 2
  | 'e' => some 2
  | 'i' => some 4
  | 'I' => some 4
  | 'l' => some 4
  | 'L' => some 4
  | 'f' => some 4
  | 'q' => some 8
  | 'Q' => some 8
  | 'd' => some 8
  | _   => none

/-- Result of compiling a `struct` format: total packed `size` in bytes and
the number of `leaves` returned by `unpack`. -/
structure StructInfo where
  size : Nat
  leaves : Nat
  deriving DecidableEq, Repr

/-- Parse a `struct` format string (standard size mode): an optional decimal
repeat count followed by a format character, repeated.  `pending` carries the
digits of a count already read.  Returns the total size and leaf count, or
`none` for a malformed format (`struct.error`).  For `s`/`p` the count is the
byte length and one leaf is produced; `x` is padding and produces no leaf. -/
def fmtParseAux : List Char → Option Nat → Option StructInfo
  | [], none => some ⟨0, 0⟩
  | [], some _ => none
  | c :: rest, pending =>
    if c.isDigit then
      fmtParseAux rest (some ((pending.getD 0) * 10 + (c.toNat - 48)))
    else if c = ' ' then
      match pending with
      | none => fmtParseAux rest none
      | some _ => none
    else
      match charSize c with
      | none => none
      | some sz =>
        let n := pending.getD 1
        let bytes := if c = 's' ∨ c = 'p' then n else n * sz
        let lv : Nat := if c = 's' ∨ c = 'p' then 1 else if c = 'x' then 0 else n
        match fmtParseAux rest none with
        | none => none
        | some info => some ⟨bytes + info.size, lv + info.leaves⟩

/-- Compile a `struct` format given as a character list. -/
def fmtParse (s : List Char) : Option StructInfo :=
  fmtParseAux s none

/-- Python string repetition `s * n` (empty for a non-positive count),
producing the character list of the result. -/
def pyStrMul (s : String) (n : Int) : List Char :=
  List.flatten (List.replicate n.toNat s.toList)

/-- Reduce an integer into the signed 64-bit range by two's-complement
wraparound, as numpy's int64 arithmetic does silently. -/
def wrap64 (n : Int) : Int :=
  let m := n % (2 ^ 64)
  if m < 2 ^ 63 then m else m - 2 ^ 64

/-- `np.prod` of a non-empty int tuple: the tuple is coerced to an int64
array and reduced by int64 multiplication, each step wrapping silently
(e.g. `np.prod((2 ** 62, 4))` is 0).  Elements are assumed to fit in int64,
as the coercion requires.  `np.prod` of an empty tuple is the float `1.0`,
which makes `str * np.prod(())` raise `TypeError`; that case is handled
separately where it occurs. -/
def pyProd (shape : List Int) : Int :=
  shape.foldl (fun acc d => wrap64 (acc * d)) 1

/-! ### `Struct2NetCDF.parse_config` -/

/-- One parsed config field: `(name, (format, shape))`. -/
abbrev Field := String × String × List Int

def Field.name (f : Field) : String := f.1
def Field.fmt (f : Field) : String := f.2.1
def Field.shape (f : Field) : List Int := f.2.2

/-- `OrderedDict` insertion: an existing key keeps its position and has its
value replaced; a new key is appended at the end. -/
def odInsert (k : String) (v : String × List Int) :
    List Field → List Field
  | [] => [(k, v)]
  | (k', v') :: rest =>
    if k' = k then (k', v) :: rest else (k', v') :: odInsert k v rest

/-- Parse one config item (`Struct2NetCDF.parse_config` loop body):
checks the arity (2 or 3), extracts name and format, normalizes the shape
(`(item[2:] or (1,))[0]`, then an int becomes a 1-tuple), and runs the
`isinstance` assertions. -/
def parseItem (item : List PyVal) : Except PyError (String × String × List Int) :=
  if ¬ (2 ≤ item.length ∧ item.length ≤ 3) then
    .error .valueError
  else
    let rawShape : PyVal := (item.drop 2).headD (.vint 1)
    let shaped : PyVal :=
      match rawShape with
      | .vint n => .vtup [n]
      | v => v
    match item.head?, (item.drop 1).head?, shaped with
    | some (.vstr name), some (.vstr fmt), .vtup shape =>
      .ok (name, fmt, shape)
    | _, _, _ => .error .assertionError

/-- The loop of `parse_config`: parse each item in order, inserting into the
ordered dictionary `acc`; the first failing item's exception propagates. -/
def parseConfigAux : List Field → List (List PyVal) → Except PyError (List Field)
  | acc, [] => .ok acc
  | acc, item :: rest =>
    match parseItem item with
    | .error e => .error e
    | .ok f => parseConfigAux (odInsert f.1 f.2 acc) rest

/-- `Struct2NetCDF.parse_config`: fold the items into an ordered dictionary. -/
def parse_config (config : List (List PyVal)) : Except PyError (List Field) :=
  parseConfigAux [] config

/-! ### `Struct2NetCDF.create_struct` -/

/-- `Struct2NetCDF.create_struct`: join each field's format repeated
`np.prod(shape)` times and compile the result (the code prepends the `<`
byte-order character, selecting standard sizes with no padding).  An empty
shape raises `TypeError` (string times float); a malformed joined format
raises `struct.error`.

`structChunks` is the joined format string (the generator inside
`str.join`, evaluated left to right). -/
def structChunks : List Field → Except PyError (List Char)
  | [] => .ok []
  | f :: rest =>
    if f.shape = ([] : List Int) then .error .typeError
    else
      match structChunks rest with
      | .error e => .error e
      | .ok s => .ok (pyStrMul f.fmt (pyProd f.shape) ++ s)

def create_struct (cfg : List Field) : Except PyError StructInfo :=
  match structChunks cfg with
  | .error e => .error e
  | .ok joined =>
    match fmtParse joined with
    | none => .error .structError
    | some info => .ok info

/-! ### `Struct2NetCDF.convert_fmt_to_dtype` -/

/-- `Struct2NetCDF.convert_fmt_to_dtype`: regex search over the format string.
`[bhil]` and `[q]` are searched case-insensitively, the rest case-sensitively,
in the order of the source's `if/elif` chain; no match raises `ValueError`. -/
def convert_fmt_to_dtype (fmt : String) : Except PyError NPDtype :=
  if fmt.toList.any (fun c => c ∈ ['b', 'h', 'i', 'l', 'B', 'H', 'I', 'L']) then
    .ok .int32
  else if fmt.toList.any (fun c => c ∈ ['q', 'Q']) then
    .ok .int64
  else if fmt.toList.any (fun c => c ∈ ['e', 'f']) then
    .ok .float32
  else if fmt.toList.any (fun c => c = 'd') then
    .ok .float64
  else if fmt.toList.any (fun c => c ∈ ['c', 's', 'p']) then
    .ok .npstr
  else if fmt.toList.any (fun c => c = '?') then
    .ok .npbool
  else
    .error .valueError

/-! ### The netCDF dataset model -/

/-- A netCDF dimension: `size = none` is the unlimited dimension. -/
structure NCDim where
  name : String
  size : Option Int
  deriving DecidableEq, Repr

/-- A netCDF variable: name, dtype and dimension names. -/
structure NCVar where
  name : String
  dtype : NPDtype
  dims : List String
  deriving DecidableEq, Repr

/-- The dataset structure the converter creates. -/
structure NCDataset where
  dims : List NCDim
  vars : List NCVar
  deriving DecidableEq, Repr

/-- File-system-visible operations performed on the output path. -/
inductive FsOp where
  | openWrite
  | createDimension (name : String) (size : Option Int)
  | createVariable (name : String) (dtype : NPDtype) (dims : List String)
  deriving DecidableEq, Repr

def NCDataset.addDim (ds : NCDataset) (d : NCDim) : NCDataset :=
  { ds with dims := ds.dims ++ [d] }

def NCDataset.addVar (ds : NCDataset) (v : NCVar) : NCDataset :=
  { ds with vars := ds.vars ++ [v] }

/-- The dimension names `f"{name}_dim{i}"` for `i in range(len(shape))`. -/
def dimNames (name : String) (shape : List Int) : List String :=
  (List.range shape.length).map fun i => name ++ "_dim" ++ toString i

/-- The `createDimension` calls for one non-scalar field. -/
def dimOps (name : String) (shape : List Int) : List FsOp :=
  (List.zip (dimNames name shape) shape).map fun p => .createDimension p.1 (some p.2)

/-- The dimensions recorded for one non-scalar field. -/
def fieldDims (name : String) (shape : List Int) : List NCDim :=
  (List.zip (dimNames name shape) shape).map fun p => ⟨p.1, some p.2⟩

/-- The body of the `create_empty_dataset` loop: for each field, map the
format to a dtype (`ValueError` on an unrecognized format), then either create
a 1-D variable over the unlimited dimension (shape `(1,)`) or create one fixed
dimension per shape element and a variable of rank `1 + len(shape)`.
Returns the trace of operations performed and the resulting dataset (the
trace up to the failure point when a dtype is unrecognized). -/
def createVars (t : String) : List Field → NCDataset → List FsOp × Except PyError NCDataset
  | [], ds => ([], .ok ds)
  | f :: rest, ds =>
    match convert_fmt_to_dtype f.fmt with
    | .error e => ([], .error e)
    | .ok dtype =>
      if f.shape = [1] then
        let ds' := ds.addVar ⟨f.name, dtype, [t]⟩
        let r := createVars t rest ds'
        (.createVariable f.name dtype [t] :: r.1, r.2)
      else
        let names := dimNames f.name f.shape
        let ds' := (fieldDims f.name f.shape).foldl NCDataset.addDim ds
        let ds'' := ds'.addVar ⟨f.name, dtype, t :: names⟩
        let r := createVars t rest ds''
        (dimOps f.name f.shape ++ .createVariable f.name dtype (t :: names) :: r.1, r.2)

/-- `Struct2NetCDF.create_empty_dataset`: open the output for writing, create
the unlimited dimension, then the per-field dimensions and variables. -/
def create_empty_dataset (t : String) (cfg : List Field) :
    List FsOp × Except PyError NCDataset :=
  let ds0 : NCDataset := ⟨[⟨t, none⟩], []⟩
  let r := createVars t cfg ds0
  (.openWrite :: .createDimension t none :: r.1, r.2)

/-! ### `Struct2NetCDF.__init__` and `write` -/

/-- The converter's state after `__init__` (the mutable part is `n_write`;
`readsize` is the alias `self.readsize = self.struct.size`). -/
structure ConvState where
  config : List Field
  strct : StructInfo
  dataset : NCDataset
  n_write : Nat
  deriving DecidableEq, Repr

/-- `Struct2NetCDF.__init__` with the defaults the repository always uses
(`byteorder='<'`, `unlimited_dim='t'`).  `pathExists` models
`self.path.exists()`.  Returns the trace of file-system operations on the
output path together with the result; on the existence check failing, nothing
has been done to the path. -/
def init (pathExists overwrite : Bool) (config : List (List PyVal)) :
    List FsOp × Except PyError ConvState :=
  if pathExists ∧ ¬ overwrite then ([], .error .fileExistsError)
  else
    match parse_config config with
    | .error e => ([], .error e)
    | .ok cfg =>
      match create_struct cfg with
      | .error e => ([], .error e)
      | .ok si =>
        match create_empty_dataset "t" cfg with
        | (ops, .error e) => (ops, .error e)
        | (ops, .ok ds) => (ops, .ok ⟨cfg, si, ds, 0⟩)

/-- The number of `popleft` calls the `write` loop performs for one field:
one for shape `(1,)`, else `range(np.prod(shape))` many. -/
def fieldPops (f : Field) : Nat :=
  if f.shape = [1] then 1 else (pyProd f.shape).toNat

/-- The field-storing loop of `write`: pop each field's leaves off the deque
(`avail` values remain) and assign them to the field's variable at the current
row.  Popping an empty deque raises `IndexError`; the loop stops there, with
earlier fields' assignments already done. -/
def storeFields : List Field → Nat → Option PyError
  | [], _ => none
  | f :: rest, avail =>
    let need := fieldPops f
    if avail < need then some .indexError
    else storeFields rest (avail - need)

/-- `Struct2NetCDF.write`: raise `EOFError` on an empty buffer, assert the
buffer length equals `readsize`, unpack (yielding `strct.leaves` values), store
each field and finally advance `n_write` by one.  Any exception leaves
`n_write` unchanged. -/
def write (st : ConvState) (binary : List Nat) : Except PyError Unit × ConvState :=
  if binary.length = 0 then (.error .eofError, st)
  else if binary.length ≠ st.strct.size then (.error .assertionError, st)
  else
    match storeFields st.config st.strct.leaves with
    | some e => (.error e, st)
    | none => (.ok (), { st with n_write := st.n_write + 1 })

/-- Run a sequence of `write` calls, keeping the final state (exceptions are
caught by the caller and the next call made on the same object). -/
def runWrites (st : ConvState) : List (List Nat) → ConvState
  | [] => st
  | b :: bs => runWrites (write st b).2 bs

/-- The number of successful writes in a sequence of `write` calls. -/
def countWriteOk (st : ConvState) : List (List Nat) → Nat
  | [] => 0
  | b :: bs =>
    (if (write st b).1.isOk then 1 else 0) + countWriteOk (write st b).2 bs

/-! ### The module constant `CONFIG` and `main` of `src/xffts2netcdf.py` -/

/-- The module constant `CONFIG`. -/
def CONFIG : List (List PyVal) :=
  [ [.vstr "date", .vstr "28s"],
    [.vstr "junk1", .vstr "4s"],
    [.vstr "obsnum", .vstr "q"],
    [.vstr "bufpos", .vstr "8s"],
    [.vstr "scanmode", .vstr "8s"],
    [.vstr "chopperpos", .vstr "8s"],
    [.vstr "scancount", .vstr "q"],
    [.vstr "speccount", .vstr "q"],
    [.vstr "integtime", .vstr "l"],
    [.vstr "junk2", .vstr "172s"],
    [.vstr "array", .vstr "f", .vint 32768] ]

/-- The read-and-write loop of `main`: `n` remaining iterations, `rem` bytes
left in the input file.  Each iteration reads `min(readsize, rem)` bytes
(modelled as zero bytes; only the length matters to `write`'s control flow)
and calls `write`; an exception propagates out of `main`, ending the loop.
Returns the final `n_write` and the overall result. -/
def mainLoop (g : ConvState) (rem : Nat) : Nat → Nat × Except PyError ConvState
  | 0 => (g.n_write, .ok g)
  | n + 1 =>
    let binary := List.replicate (min g.strct.size rem) 0
    match write g binary with
    | (.error e, g') => (g'.n_write, .error e)
    | (.ok _, g') => mainLoop g' (rem - binary.length) n

/-- The body of `main` given the converter-construction outcome: a
construction exception propagates; otherwise assert the file size is a
multiple of `readsize` and run the loop for `filesize / readsize`
iterations. -/
def mainRunAux (g0 : Except PyError ConvState) (filesize : Nat) :
    Nat × Except PyError Unit :=
  match g0 with
  | .error e => (0, .error e)
  | .ok g =>
    if filesize % g.strct.size ≠ 0 then (0, .error .assertionError)
    else
      let p := mainLoop g filesize (filesize / g.strct.size)
      (p.1, p.2.map fun _ => ())

/-- `main` after argument parsing: open the input file (of `filesize` bytes),
construct `Struct2NetCDF(netcdf, CONFIG)` (default `overwrite=False`), and run
the conversion.  Returns the number of successful writes with the result. -/
def mainRun (filesize : Nat) (ncExists : Bool) : Nat × Except PyError Unit :=
  mainRunAux (init ncExists false CONFIG).2 filesize

/-! ### `src/rename-xffts.py` -/

/-- The `DTYPES` constant of `src/rename-xffts.py` as `(name, itemsize in
bytes, element count)` triples (`"a28"` is a 28-byte string, `"i8"` an 8-byte
int, `("f4", 32768)` a 32768-element float32 subarray). -/
def DTYPES : List (String × Nat × Nat) :=
  [ ("time", 28, 1),
    ("reserved1", 4, 1),
    ("obsnum", 8, 1),
    ("scantype", 8, 1),
    ("scanmode", 8, 1),
    ("chopperpos", 8, 1),
    ("scancount", 8, 1),
    ("speccount", 8, 1),
    ("integtime", 4, 1),
    ("reserved2", 172, 1),
    ("array", 4, 32768) ]

/-- The itemsize of the structured dtype built from `DTYPES`. -/
def dtypesItemsize : Nat :=
  (DTYPES.map fun d => d.2.1 * d.2.2).sum

/-- The byte offset of the `obsnum` column inside one record (the fields
before it: `time` 28 bytes + `reserved1` 4 bytes). -/
def obsnumOffset : Nat := 32

/-- Little-endian unsigned integer value of a byte list. -/
def readLE (bytes : List Nat) : Nat :=
  bytes.foldr (fun b acc => b + 256 * acc) 0

/-- Reinterpret an unsigned 64-bit value as a signed (two's-complement)
64-bit integer. -/
def toSigned64 (n : Nat) : Int :=
  if n < 2 ^ 63 then (n : Int) else (n : Int) - 2 ^ 64

/-- The signed 64-bit `obsnum` column value of record 0 of a file. -/
def decodeObsnum (file : List Nat) : Int :=
  toSigned64 (readLE ((file.drop obsnumOffset).take 8))

/-- `np.frombuffer(buf, dtype=DTYPES)`: `ValueError` when the buffer length is
not a multiple of the itemsize; otherwise one record per itemsize bytes.  Only
the `obsnum` column is materialized, the only column the source reads. -/
def np_frombuffer (file : List Nat) : Except PyError (List Int) :=
  if file.length % dtypesItemsize ≠ 0 then .error .valueError
  else .ok ((List.range (file.length / dtypesItemsize)).map fun i =>
    toSigned64 (readLE ((file.drop (i * dtypesItemsize + obsnumOffset)).take 8)))

/-- `get_obsnum` of `src/rename-xffts.py`: parse the whole file with
`np.frombuffer` (`ValueError` caught, returning 0), read `log["obsnum"][0]`
(`IndexError` on an empty record array caught, returning 0), then keep the
value only if `0 < obsnum < 1000000`, else return 0. -/
def get_obsnum (file : List Nat) : Int :=
  match np_frombuffer file with
  | .error _ => 0
  | .ok log =>
    match log.head? with
    | none => 0
    | some obsnum =>
      if 0 < obsnum ∧ obsnum < 1000000 then obsnum else 0

/-- Python `str.split(sep)` for a single-character separator, on character
lists.  Always returns at least one (possibly empty) part. -/
def pySplit (sep : Char) : List Char → List (List Char)
  | [] => [[]]
  | c :: rest =>
    match pySplit sep rest with
    | [] => [[]]
    | h :: t => if c = sep then [] :: h :: t else (c :: h) :: t

/-- Python `list.insert(1, x)`: insert after the first element (clamping when
the list is shorter). -/
def pyInsert1 (x : List Char) : List (List Char) → List (List Char)
  | [] => [x]
  | h :: t => h :: x :: t

/-- Python `".".join(parts)` on character lists. -/
def pyJoinDot : List (List Char) → List Char
  | [] => []
  | [x] => x
  | x :: xs => x ++ '.' :: pyJoinDot xs

/-- Python `f"{n:0>6}"`: the decimal representation padded on the left with
zeros to at least 6 characters. -/
def pyFormat06 (n : Int) : List Char :=
  let s := (toString n).toList
  List.replicate (6 - s.length) '0' ++ s

/-- The constant `OBSNUM = "obsnum"` as a character list. -/
def obsnumChars : List Char := "obsnum".toList

/-- `rename` of `src/rename-xffts.py`, acting on the file name (`xffts.name`):
if the name already contains `"obsnum"` the path is returned unchanged and no
filesystem rename happens (second component `false`); otherwise the tag
`obsnum` + zero-padded observation number `v` is spliced in after the first
dot-separated part and `Path.rename` is invoked (second component `true`). -/
def rename (name : List Char) (v : Int) : List Char × Bool :=
  if obsnumChars.IsInfix name then (name, false)
  else
    let parts := pySplit '.' name
    let parts := pyInsert1 (obsnumChars ++ pyFormat06 v) parts
    (pyJoinDot parts, true)

/-! ### `src/create_symlinks.py` -/

/-- The obsnum extraction inside `create_symlink`: seek to byte 32, read 8
bytes, `struct.Struct("q").unpack` them.  `unpack` raises `struct.error`
unless exactly 8 bytes were read; the source catches it and uses the sentinel
`"no_lmt"` instead (modelled as `none`). -/
def symlink_obsnum (file : List Nat) : Option Int :=
  let chunk := (file.drop 32).take 8
  if chunk.length ≠ 8 then none
  else some (toSigned64 (readLE chunk))

/-! ## Helper definitions for the statements -/

/-- Packed byte width of a single field's format string (0 when it does not
parse; used under a hypothesis that it does). -/
def fmtWidth (fmt : String) : Nat :=
  ((fmtParse fmt.toList).getD ⟨0, 0⟩).size

/-- Leaf count of a single field's format string. -/
def fmtLeaves (fmt : String) : Nat :=
  ((fmtParse fmt.toList).getD ⟨0, 0⟩).leaves

/-- `np.prod(shape)` clamped to `Nat` (the repetition count used for the
joined format string). -/
def prodNat (shape : List Int) : Nat :=
  (pyProd shape).toNat

/-- Sum over fields of format width times shape product: the record size the
spec prescribes. -/
def recordSizeSum (cfg : List Field) : Nat :=
  (cfg.map fun f => fmtWidth f.fmt * prodNat f.shape).sum

/-- Sum over fields of format leaf count times shape product: the number of
values `unpack` yields for one record. -/
def recordLeavesSum (cfg : List Field) : Nat :=
  (cfg.map fun f => fmtLeaves f.fmt * prodNat f.shape).sum

/-- The variable `create_empty_dataset` creates for one field. -/
def varOf (t : String) (f : Field) : NCVar :=
  ⟨f.name, (convert_fmt_to_dtype f.fmt).toOption.getD .int32,
   if f.shape = [1] then [t] else t :: dimNames f.name f.shape⟩

/-- The fixed dimensions `create_empty_dataset` creates for one field. -/
def dimsOf (f : Field) : List NCDim :=
  if f.shape = [1] then [] else fieldDims f.name f.shape

/-- `parse_config CONFIG`, written out. -/
def cfgCONFIG : List Field :=
  [("date", "28s", [1]), ("junk1", "4s", [1]), ("obsnum", "q", [1]),
   ("bufpos", "8s", [1]), ("scanmode", "8s", [1]), ("chopperpos", "8s", [1]),
   ("scancount", "q", [1]), ("speccount", "q", [1]), ("integtime", "l", [1]),
   ("junk2", "172s", [1]), ("array", "f", [32768])]

/-- The netCDF dataset `create_empty_dataset` builds from `CONFIG`. -/
def dsCONFIG : NCDataset :=
  ⟨[⟨"t", none⟩, ⟨"array_dim0", some 32768⟩],
   [⟨"date", .npstr, ["t"]⟩, ⟨"junk1", .npstr, ["t"]⟩, ⟨"obsnum", .int64, ["t"]⟩,
    ⟨"bufpos", .npstr, ["t"]⟩, ⟨"scanmode", .npstr, ["t"]⟩,
    ⟨"chopperpos", .npstr, ["t"]⟩, ⟨"scancount", .int64, ["t"]⟩,
    ⟨"speccount", .int64, ["t"]⟩, ⟨"integtime", .int32, ["t"]⟩,
    ⟨"junk2", .npstr, ["t"]⟩, ⟨"array", .float32, ["t", "array_dim0"]⟩]⟩

/-- The converter state `Struct2NetCDF(netcdf, CONFIG)` reaches when the
output path does not yet exist. -/
def stCONFIG : ConvState := ⟨cfgCONFIG, ⟨131328, 32778⟩, dsCONFIG, 0⟩

/-- The converter state built from the one-field config `(a, q)`. -/
def stAQ : ConvState :=
  ⟨[("a", "q", [1])], ⟨8, 1⟩, ⟨[⟨"t", none⟩], [⟨"a", .int64, ["t"]⟩]⟩, 0⟩

/-- The converter state built from the config `(a, q), (b, f, 2)`. -/
def stAQBF2 : ConvState :=
  ⟨[("a", "q", [1]), ("b", "f", [2])], ⟨16, 3⟩,
   ⟨[⟨"t", none⟩, ⟨"b_dim0", some 2⟩],
    [⟨"a", .int64, ["t"]⟩, ⟨"b", .float32, ["t", "b_dim0"]⟩]⟩, 0⟩

/-- The converter state built from the config with the explicit shape
`(a, q, (1,))`. -/
def stAQ1 : ConvState :=
  ⟨[("a", "q", [1])], ⟨8, 1⟩, ⟨[⟨"t", none⟩], [⟨"a", .int64, ["t"]⟩]⟩, 0⟩

/-! ## Lemmas about the `struct` format parser -/

lemma fmtParseAux_append (b : List Char) :
    ∀ (a : List Char) (p : Option Nat) (x : StructInfo),
      fmtParseAux a p = some x →
      fmtParseAux (a ++ b) p =
        (fmtParse b).map fun y => ⟨x.size + y.size, x.leaves + y.leaves⟩ := by
  intro a
  induction a with
  | nil =>
    intro p x h
    cases p with
    | none =>
      simp only [fmtParseAux, Option.some.injEq] at h
      subst h
      simp only [List.nil_append, fmtParse]
      cases hb : fmtParseAux b none <;> simp
    | some n => simp [fmtParseAux] at h
  | cons c rest ih =>
    intro p x h
    by_cases hd : c.isDigit
    · simp only [List.cons_append, fmtParseAux, hd, if_true] at h ⊢
      exact ih _ _ h
    · by_cases hsp : c = ' '
      · cases p with
        | none =>
          simp only [List.cons_append, fmtParseAux, hd, hsp, if_false, if_true,
            Bool.false_eq_true] at h ⊢
          exact ih _ _ h
        | some n =>
          simp [fmtParseAux, hd, hsp] at h
      · cases hcs : charSize c with
        | none =>
          simp [fmtParseAux, hd, hsp, hcs] at h
        | some sz =>
          cases hrest : fmtParseAux rest none with
          | none =>
            simp [fmtParseAux, hd, hsp, hcs, hrest] at h
          | some i =>
            have h2 := ih none i hrest
            simp only [fmtParseAux, hd, hsp, hcs, hrest, Bool.false_eq_true,
              if_false, List.cons_append, Option.some.injEq] at h ⊢
            rw [show rest.append b = rest ++ b from rfl, h2]
            cases hb : fmtParse b with
            | none => rfl
            | some y =>
              simp only [Option.map_some']
              rw [← h]
              simp only [Option.some.injEq, StructInfo.mk.injEq]
              refine ⟨?_, ?_⟩ <;> dsimp only <;> omega

lemma fmtParse_append (a b : List Char) (x : StructInfo) (h : fmtParse a = some x) :
    fmtParse (a ++ b) =
      (fmtParse b).map fun y => ⟨x.size + y.size, x.leaves + y.leaves⟩ :=
  fmtParseAux_append b a none x h

lemma fmtParse_nil : fmtParse [] = some ⟨0, 0⟩ := rfl

lemma fmtParse_flatten_replicate (l : List Char) (x : StructInfo)
    (h : fmtParse l = some x) (n : Nat) :
    fmtParse (List.flatten (List.replicate n l)) =
      some ⟨n * x.size, n * x.leaves⟩ := by
  induction n with
  | zero =>
    rw [List.replicate_zero, List.flatten_nil, fmtParse_nil]
    simp
  | succ n ih =>
    rw [List.replicate_succ, List.flatten_cons, fmtParse_append l _ x h, ih]
    simp only [Option.map_some', Option.some.injEq, StructInfo.mk.injEq]
    refine ⟨?_, ?_⟩ <;> dsimp only <;> ring

lemma fmtParse_pyStrMul (fmt : String) (x : StructInfo)
    (h : fmtParse fmt.toList = some x) (n : Int) :
    fmtParse (pyStrMul fmt n) = some ⟨n.toNat * x.size, n.toNat * x.leaves⟩ :=
  fmtParse_flatten_replicate fmt.toList x h n.toNat

/-! ## Lemmas about `create_struct` -/

lemma structChunks_ok (cfg : List Field)
    (h1 : ∀ f ∈ cfg, f.shape ≠ [])
    (h2 : ∀ f ∈ cfg, (fmtParse f.fmt.toList).isSome = true) :
    ∃ J, structChunks cfg = .ok J ∧
      fmtParse J = some ⟨recordSizeSum cfg, recordLeavesSum cfg⟩ := by
  induction cfg with
  | nil =>
    exact ⟨[], rfl, by simp [recordSizeSum, recordLeavesSum, fmtParse_nil]⟩
  | cons f rest ih =>
    obtain ⟨J, hJ, hp⟩ :=
      ih (fun g hg => h1 g (List.mem_cons_of_mem f hg))
        (fun g hg => h2 g (List.mem_cons_of_mem f hg))
    have hs := h1 f (List.mem_cons_self f rest)
    obtain ⟨xf, hxf⟩ := Option.isSome_iff_exists.mp (h2 f (List.mem_cons_self f rest))
    refine ⟨pyStrMul f.fmt (pyProd f.shape) ++ J, ?_, ?_⟩
    · simp [structChunks, hs, hJ]
    · rw [fmtParse_append _ _ _ (fmtParse_pyStrMul f.fmt xf hxf (pyProd f.shape)), hp]
      simp only [Option.map_some', Option.some.injEq, StructInfo.mk.injEq,
        recordSizeSum, recordLeavesSum, List.map_cons, List.sum_cons,
        fmtWidth, fmtLeaves, prodNat, hxf, Option.getD_some]
      constructor <;> ring

lemma create_struct_eq (cfg : List Field)
    (h1 : ∀ f ∈ cfg, f.shape ≠ [])
    (h2 : ∀ f ∈ cfg, (fmtParse f.fmt.toList).isSome = true) :
    create_struct cfg = .ok ⟨recordSizeSum cfg, recordLeavesSum cfg⟩ := by
  obtain ⟨J, hJ, hp⟩ := structChunks_ok cfg h1 h2
  simp [create_struct, hJ, hp]

lemma create_struct_shapes (cfg : List Field) (si : StructInfo)
    (h : create_struct cfg = .ok si) :
    ∀ f ∈ cfg, f.shape ≠ [] := by
  have hJ : ∃ J, structChunks cfg = .ok J := by
    unfold create_struct at h
    cases hc : structChunks cfg with
    | error e => rw [hc] at h; exact absurd h (by simp)
    | ok J => exact ⟨J, rfl⟩
  obtain ⟨J, hJ⟩ := hJ
  clear h
  induction cfg generalizing J with
  | nil => simp
  | cons f rest ih =>
    intro g hg
    unfold structChunks at hJ
    by_cases hf : f.shape = []
    · rw [if_pos hf] at hJ
      exact absurd hJ (by simp)
    · rw [if_neg hf] at hJ
      cases hr : structChunks rest with
      | error e => rw [hr] at hJ; exact absurd hJ (by simp)
      | ok s =>
        rcases List.mem_cons.mp hg with rfl | hg
        · exact hf
        · exact ih _ hr g hg

/-! ## Lemmas about `storeFields` and `write` -/

lemma write_n_write (st : ConvState) (b : List Nat) :
    (write st b).2.n_write =
      st.n_write + (if (write st b).1.isOk then 1 else 0) := by
  unfold write
  split
  · simp [Except.isOk, Except.toBool]
  · split
    · simp [Except.isOk, Except.toBool]
    · cases hsf : storeFields st.config st.strct.leaves <;>
        simp [hsf, Except.isOk, Except.toBool]

lemma write_state (st : ConvState) (b : List Nat) :
    (write st b).2 = st ∨
      (write st b).2 = { st with n_write := st.n_write + 1 } := by
  unfold write
  split
  · exact Or.inl rfl
  · split
    · exact Or.inl rfl
    · cases storeFields st.config st.strct.leaves
      · exact Or.inr rfl
      · exact Or.inl rfl

lemma runWrites_n_write (st : ConvState) (bs : List (List Nat)) :
    (runWrites st bs).n_write = st.n_write + countWriteOk st bs := by
  induction bs generalizing st with
  | nil => simp [runWrites, countWriteOk]
  | cons b rest ih =>
    simp only [runWrites, countWriteOk]
    rw [ih, write_n_write]
    omega

/-! ## Inversion of `__init__` -/

lemma init_ok (pe ow : Bool) (raw : List (List PyVal)) (st : ConvState)
    (h : (init pe ow raw).2 = .ok st) :
    parse_config raw = .ok st.config ∧
    create_struct st.config = .ok st.strct ∧
    (create_empty_dataset "t" st.config).2 = .ok st.dataset ∧
    st.n_write = 0 := by
  unfold init at h
  split at h
  · simp at h
  · split at h
    · simp at h
    · split at h
      · simp at h
      · split at h
        · simp at h
        · rename_i hd
          simp only [Except.ok.injEq] at h
          subst h
          refine ⟨by assumption, by assumption, ?_, rfl⟩
          rw [hd]

/-! ## Characterization of the created dataset -/

lemma foldl_addDim (l : List NCDim) : ∀ ds : NCDataset,
    l.foldl NCDataset.addDim ds = ⟨ds.dims ++ l, ds.vars⟩ := by
  induction l with
  | nil =>
    intro ds
    cases ds
    simp
  | cons d rest ih =>
    intro ds
    rw [List.foldl_cons, ih]
    simp [NCDataset.addDim]

lemma createVars_ok (t : String) (cfg : List Field) :
    ∀ (ds ds' : NCDataset),
      (createVars t cfg ds).2 = .ok ds' →
      ds'.dims = ds.dims ++ cfg.flatMap dimsOf ∧
      ds'.vars = ds.vars ++ cfg.map (varOf t) ∧
      ∀ f ∈ cfg, ∃ dt, convert_fmt_to_dtype f.fmt = .ok dt := by
  induction cfg with
  | nil =>
    intro ds ds' h
    simp only [createVars, Except.ok.injEq] at h
    subst h
    simp
  | cons f rest ih =>
    intro ds ds' h
    unfold createVars at h
    split at h
    · simp at h
    · rename_i dt hdt
      split at h
      · rename_i hsh
        dsimp only [] at h
        obtain ⟨hdims, hvars, hdts⟩ := ih _ _ h
        refine ⟨?_, ?_, ?_⟩
        · rw [hdims]
          simp [NCDataset.addVar, dimsOf, hsh]
        · rw [hvars]
          simp [NCDataset.addVar, varOf, hsh, hdt, Except.toOption]
        · intro g hg
          rcases List.mem_cons.mp hg with rfl | hg
          · exact ⟨dt, hdt⟩
          · exact hdts g hg
      · rename_i hsh
        dsimp only [] at h
        obtain ⟨hdims, hvars, hdts⟩ := ih _ _ h
        refine ⟨?_, ?_, ?_⟩
        · rw [hdims, foldl_addDim]
          simp [NCDataset.addVar, dimsOf, hsh]
        · rw [hvars, foldl_addDim]
          simp [NCDataset.addVar, varOf, hsh, hdt, Except.toOption]
        · intro g hg
          rcases List.mem_cons.mp hg with rfl | hg
          · exact ⟨dt, hdt⟩
          · exact hdts g hg

lemma createVars_error (t : String) (cfg : List Field) (f : Field)
    (hf : f ∈ cfg) (hdt : convert_fmt_to_dtype f.fmt = .error .valueError) :
    ∀ ds : NCDataset, ∃ e, (createVars t cfg ds).2 = .error e := by
  induction cfg with
  | nil => simp at hf
  | cons g rest ih =>
    intro ds
    cases hg : convert_fmt_to_dtype g.fmt with
    | error e =>
      exact ⟨e, by simp [createVars, hg]⟩
    | ok dt =>
      rcases List.mem_cons.mp hf with rfl | hf
      · rw [hdt] at hg
        exact absurd hg (by simp)
      · unfold createVars
        rw [hg]
        dsimp only []
        by_cases hsh : g.shape = [1]
        · rw [if_pos hsh]
          exact ih hf _
        · rw [if_neg hsh]
          exact ih hf _

/-! ## Lemmas about `parse_config` -/

lemma parseConfigAux_error (l : List (List PyVal)) :
    ∀ (acc : List Field) (item : List PyVal), item ∈ l →
      ¬ (2 ≤ item.length ∧ item.length ≤ 3) →
      ∃ e, parseConfigAux acc l = .error e := by
  induction l with
  | nil => simp
  | cons i rest ih =>
    intro acc item hmem harity
    cases hpi : parseItem i with
    | error e => exact ⟨e, by simp [parseConfigAux, hpi]⟩
    | ok f =>
      rcases List.mem_cons.mp hmem with rfl | hmem
      · exfalso
        unfold parseItem at hpi
        rw [if_pos harity] at hpi
        exact absurd hpi (by simp)
      · obtain ⟨e, he⟩ := ih (odInsert f.1 f.2 acc) item hmem harity
        exact ⟨e, by simp [parseConfigAux, hpi, he]⟩

/-! ## The concrete converter state built from `CONFIG` -/

lemma parse_CONFIG : parse_config CONFIG = .ok cfgCONFIG := by rfl

lemma struct_CONFIG : create_struct cfgCONFIG = .ok ⟨131328, 32778⟩ := by
  have h := create_struct_eq cfgCONFIG (by decide) (by decide)
  rw [h]
  have h1 : recordSizeSum cfgCONFIG = 131328 := by decide
  have h2 : recordLeavesSum cfgCONFIG = 32778 := by decide
  rw [h1, h2]

lemma dataset_CONFIG : (create_empty_dataset "t" cfgCONFIG).2 = .ok dsCONFIG := by rfl

lemma init_build (pe ow : Bool) (raw : List (List PyVal)) (cfg : List Field)
    (si : StructInfo) (ds : NCDataset)
    (hguard : ¬ (pe = true ∧ ¬ ow = true))
    (hp : parse_config raw = .ok cfg)
    (hc : create_struct cfg = .ok si)
    (hd : (create_empty_dataset "t" cfg).2 = .ok ds) :
    (init pe ow raw).2 = .ok ⟨cfg, si, ds, 0⟩ := by
  unfold init
  rw [if_neg hguard, hp]
  dsimp only []
  rw [hc]
  dsimp only []
  have hpair : create_empty_dataset "t" cfg =
      ((create_empty_dataset "t" cfg).1, Except.ok ds) := by
    rw [← hd]
  rw [hpair]

lemma init_CONFIG : (init false false CONFIG).2 = .ok stCONFIG :=
  init_build false false CONFIG cfgCONFIG ⟨131328, 32778⟩ dsCONFIG
    (by simp) parse_CONFIG struct_CONFIG dataset_CONFIG

/-! ## Lemmas about `rename` -/

lemma pySplit_exists (sep : Char) (l : List Char) :
    ∃ h t, pySplit sep l = h :: t := by
  induction l with
  | nil => exact ⟨[], [], rfl⟩
  | cons c rest ih =>
    obtain ⟨h, t, hht⟩ := ih
    by_cases hc : c = sep
    · exact ⟨[], h :: t, by simp [pySplit, hht, hc]⟩
    · exact ⟨c :: h, t, by simp [pySplit, hht, hc]⟩

lemma pyJoinDot_cons_cons (x y : List Char) (t : List (List Char)) :
    pyJoinDot (x :: y :: t) = x ++ '.' :: pyJoinDot (y :: t) := rfl

lemma pyJoinDot_head (x : List Char) (t : List (List Char)) :
    ∃ r, pyJoinDot (x :: t) = x ++ r := by
  cases t with
  | nil => exact ⟨[], by simp [pyJoinDot]⟩
  | cons y t' => exact ⟨'.' :: pyJoinDot (y :: t'), rfl⟩

/-- Every name produced by `rename` contains `"obsnum"`: either it already did,
or the inserted part starts with it. -/
lemma rename_contains (name : List Char) (v : Int) :
    obsnumChars.IsInfix (rename name v).1 := by
  unfold rename
  split
  · rename_i h
    exact h
  · rename_i h
    dsimp only []
    obtain ⟨hh, ht, hsplit⟩ := pySplit_exists '.' name
    rw [hsplit]
    show obsnumChars.IsInfix
      (pyJoinDot (hh :: (obsnumChars ++ pyFormat06 v) :: ht))
    rw [pyJoinDot_cons_cons]
    obtain ⟨r, hr⟩ := pyJoinDot_head (obsnumChars ++ pyFormat06 v) ht
    rw [hr]
    exact ⟨hh ++ ['.'], pyFormat06 v ++ r, by simp⟩

/-! ## Lemmas about `get_obsnum` -/

lemma get_obsnum_not_multiple (file : List Nat)
    (h : file.length % dtypesItemsize ≠ 0) : get_obsnum file = 0 := by
  simp [get_obsnum, np_frombuffer, h]

lemma get_obsnum_short (file : List Nat)
    (h : file.length < dtypesItemsize) : get_obsnum file = 0 := by
  by_cases hm : file.length % dtypesItemsize = 0
  · have hlen : file.length = 0 := by
      rw [Nat.mod_eq_of_lt h] at hm
      exact hm
    simp [get_obsnum, np_frombuffer, hlen]
  · exact get_obsnum_not_multiple file hm

/-! ## Lemmas about `pyProd` -/

lemma wrap64_eq_self (n : Int) (h0 : 0 ≤ n) (h1 : n < 2 ^ 63) :
    wrap64 n = n := by
  unfold wrap64
  have hm : n % (2 ^ 64) = n := Int.emod_eq_of_lt h0 (by omega)
  rw [hm, if_pos h1]

/-- As long as the running int64 product stays strictly below `2 ^ 63`, the
wrapping reduction computes the exact product; with positive factors the
partial products are monotone, so a bound on the full product suffices. -/
lemma pyProd_foldl_eq (shape : List Int) :
    ∀ acc : Int, 0 < acc → (∀ d ∈ shape, 0 < d) →
      acc * shape.prod < 2 ^ 63 →
      shape.foldl (fun a d => wrap64 (a * d)) acc = acc * shape.prod := by
  induction shape with
  | nil =>
    intro acc _ _ _
    simp
  | cons d t ih =>
    intro acc hacc hpos hlt
    have hd := hpos d (List.mem_cons_self d t)
    have hpt : (0 : Int) < t.prod :=
      List.prod_pos fun x hx => hpos x (List.mem_cons_of_mem d hx)
    rw [List.prod_cons, show acc * (d * t.prod) = acc * d * t.prod by ring] at hlt
    have hbound : acc * d < 2 ^ 63 :=
      lt_of_le_of_lt (le_mul_of_one_le_right (mul_pos hacc hd).le hpt) hlt
    rw [List.foldl_cons, wrap64_eq_self _ (mul_pos hacc hd).le hbound,
      ih (acc * d) (mul_pos hacc hd)
        (fun x hx => hpos x (List.mem_cons_of_mem d hx)) hlt,
      List.prod_cons]
    ring

lemma int_prod_natCast (shape : List Int) (h : ∀ d ∈ shape, 0 < d) :
    ((shape.map Int.toNat).prod : Int) = shape.prod := by
  induction shape with
  | nil => rfl
  | cons d t ih =>
    have hd := h d (List.mem_cons_self d t)
    have hrec := ih fun x hx => h x (List.mem_cons_of_mem d hx)
    rw [List.map_cons, List.prod_cons, List.prod_cons, Int.natCast_mul,
      hrec, Int.toNat_of_nonneg hd.le]

lemma prodNat_eq_prod (shape : List Int) (h : ∀ d ∈ shape, 0 < d)
    (hlt : (shape.map Int.toNat).prod < 2 ^ 63) :
    prodNat shape = (shape.map Int.toNat).prod := by
  have hcast := int_prod_natCast shape h
  have hltI : shape.prod < (2 : Int) ^ 63 := by
    rw [← hcast]
    exact_mod_cast hlt
  have hfold := pyProd_foldl_eq shape 1 Int.one_pos h (by rw [one_mul]; exact hltI)
  unfold prodNat pyProd
  rw [hfold, one_mul, ← hcast, Int.toNat_natCast]

/-! ## Claim theorems -/

/-- C5: opening the writer on an existing path with `overwrite = false` fails
with `FileExistsError` (the code's `AlreadyExistsError`), and nothing at all is
done to the pre-existing file: the operation trace is empty, so no dataset,
dimension or variable creation has touched the path and the file is unchanged
byte for byte. -/
theorem c5_no_clobber_without_overwrite (config : List (List PyVal)) :
    init true false config = ([], .error .fileExistsError) := by
  unfold init
  rw [if_pos (by simp)]

/-- Witness for C5 at a concrete config. -/
theorem c5_no_clobber_witness :
    init true false [[.vstr "a", .vstr "q"]] =
      ([], .error .fileExistsError) :=
  c5_no_clobber_without_overwrite [[.vstr "a", .vstr "q"]]

/-- C7: when the input file size is not an exact multiple of the record size
(131328 bytes for `CONFIG`), `main` fails at the alignment assertion (the
code's `MisalignedFileError`) before its read-write loop starts: the returned
write count is 0, so no record was decoded or appended. -/
theorem c7_misaligned_file (filesize : Nat)
    (h : filesize % 131328 ≠ 0) :
    mainRun filesize false = (0, .error .assertionError) := by
  have haux : ∀ (g : ConvState) (fs : Nat), fs % g.strct.size ≠ 0 →
      mainRunAux (.ok g) fs = (0, .error .assertionError) := by
    intro g fs hg
    unfold mainRunAux
    dsimp only []
    rw [if_pos hg]
  unfold mainRun
  rw [init_CONFIG]
  exact haux stCONFIG filesize
    (by rw [show stCONFIG.strct.size = 131328 from rfl]; exact h)

/-- Witness for C7 at a concrete one-byte input file. -/
theorem c7_misaligned_file_witness :
    mainRun 1 false = (0, .error .assertionError) :=
  c7_misaligned_file 1 (by decide)

/-- C3: the write cursor `n_write` starts at 0 at construction, is advanced by
exactly 1 by each successful `write`, is left unchanged by each failing
`write` (any exception is raised before the final `self.n_write += 1`), never
decreases, and after any sequence of `write` calls equals the number of
successful calls in the sequence. -/
theorem c3_write_cursor :
    (∀ (pe ow : Bool) (raw : List (List PyVal)) (st : ConvState),
        (init pe ow raw).2 = .ok st → st.n_write = 0) ∧
    (∀ (st : ConvState) (b : List Nat),
        ((write st b).1.isOk = true → (write st b).2.n_write = st.n_write + 1) ∧
        ((write st b).1.isOk = false → (write st b).2.n_write = st.n_write) ∧
        st.n_write ≤ (write st b).2.n_write) ∧
    (∀ (st : ConvState) (bs : List (List Nat)),
        (runWrites st bs).n_write = st.n_write + countWriteOk st bs) := by
  refine ⟨?_, ?_, runWrites_n_write⟩
  · intro pe ow raw st h
    exact (init_ok pe ow raw st h).2.2.2
  · intro st b
    have hw := write_n_write st b
    refine ⟨?_, ?_, ?_⟩
    · intro h
      rw [hw, h]
      rfl
    · intro h
      rw [hw, h]
      rfl
    · rw [hw]
      split <;> omega

/-- Witness for C3: the cursor of a freshly constructed converter is 0, a
successful write advances it to 1, a failing write leaves it at 0. -/
theorem c3_write_cursor_witness :
    stAQ.n_write = 0 ∧
    (write stAQ (List.replicate 8 0)).2.n_write = stAQ.n_write + 1 ∧
    (write stAQ [0]).2.n_write = stAQ.n_write :=
  ⟨c3_write_cursor.1 false false [[.vstr "a", .vstr "q"]] stAQ (by rfl),
   (c3_write_cursor.2.1 stAQ (List.replicate 8 0)).1 (by decide),
   (c3_write_cursor.2.1 stAQ [0]).2.1 (by decide)⟩

/-- C8: the observation-number extraction never raises on malformed input.
`get_obsnum` returns the sentinel 0 whenever the file length is not a multiple
of the record size (a `ValueError` from `np.frombuffer`, caught), in
particular for every file too short to contain one record; `create_symlink`'s
extraction returns the sentinel `"no_lmt"` (modelled `none`) for every file
too short to yield 8 bytes at offset 32 (a `struct.error`, caught). -/
theorem c8_obsnum_sentinel (file : List Nat) :
    (file.length % dtypesItemsize ≠ 0 → get_obsnum file = 0) ∧
    (file.length < dtypesItemsize → get_obsnum file = 0) ∧
    (file.length < 40 → symlink_obsnum file = none) := by
  refine ⟨get_obsnum_not_multiple file, get_obsnum_short file, ?_⟩
  intro h
  unfold symlink_obsnum
  dsimp only []
  rw [if_pos ?_]
  rw [List.length_take, List.length_drop]
  omega

/-- Witness for C8 at a concrete one-byte file. -/
theorem c8_obsnum_sentinel_witness :
    get_obsnum [0] = 0 ∧ symlink_obsnum [0] = none :=
  ⟨(c8_obsnum_sentinel [0]).1 (by decide),
   (c8_obsnum_sentinel [0]).2.2 (by decide)⟩

/-- C9: `rename` is idempotent at its public interface.  A path whose file
name already contains the substring `"obsnum"` is returned unchanged with no
filesystem rename performed (flag `false`), and since every name `rename`
produces contains `"obsnum"`, applying `rename` to an already-renamed file
returns it unchanged: applying twice equals applying once. -/
theorem c9_rename_idempotent (name : List Char) (v w : Int) :
    (obsnumChars.IsInfix name → rename name v = (name, false)) ∧
    rename (rename name v).1 w = ((rename name v).1, false) := by
  constructor
  · intro h
    unfold rename
    rw [if_pos h]
  · have hc := rename_contains name v
    generalize (rename name v).1 = m at hc ⊢
    unfold rename
    rw [if_pos hc]

/-- Witness for C9: a name already containing `obsnum` is returned unchanged,
and renaming the output of a rename changes nothing. -/
theorem c9_rename_idempotent_witness :
    rename ("xffts.obsnum000042.xfftsx.01".toList) 7 =
      ("xffts.obsnum000042.xfftsx.01".toList, false) ∧
    rename (rename ("xffts20181001.xfftsx.01".toList) 42).1 9 =
      ((rename ("xffts20181001.xfftsx.01".toList) 42).1, false) :=
  ⟨(c9_rename_idempotent ("xffts.obsnum000042.xfftsx.01".toList) 7 0).1 (by decide),
   (c9_rename_idempotent ("xffts20181001.xfftsx.01".toList) 42 9).2⟩

/-- C10: `get_obsnum` returns a value that is either 0 or lies strictly
between 0 and 1000000; in particular, when the file parses into at least one
record but the decoded signed 64-bit observation number is outside that open
interval, the function returns 0 rather than the decoded value. -/
theorem c10_obsnum_range (file : List Nat) :
    (get_obsnum file = 0 ∨
      (0 < get_obsnum file ∧ get_obsnum file < 1000000)) ∧
    (file.length % dtypesItemsize = 0 → file.length ≠ 0 →
      ¬ (0 < decodeObsnum file ∧ decodeObsnum file < 1000000) →
      get_obsnum file = 0) := by
  constructor
  · unfold get_obsnum
    split
    · exact Or.inl rfl
    · split
      · exact Or.inl rfl
      · split
        · rename_i h
          exact Or.inr h
        · exact Or.inl rfl
  · intro h1 h2 h3
    have hfb : np_frombuffer file =
        .ok ((List.range (file.length / dtypesItemsize)).map fun i =>
          toSigned64 (readLE ((file.drop (i * dtypesItemsize + obsnumOffset)).take 8))) := by
      unfold np_frombuffer
      rw [if_neg (by simp [h1])]
    have hdivpos : 0 < file.length / dtypesItemsize :=
      Nat.div_pos
        (Nat.le_of_dvd (Nat.pos_of_ne_zero h2) (Nat.dvd_of_mod_eq_zero h1))
        (by decide)
    obtain ⟨k, hk⟩ :=
      Nat.exists_eq_succ_of_ne_zero (Nat.pos_iff_ne_zero.mp hdivpos)
    unfold decodeObsnum at h3
    unfold get_obsnum
    rw [hfb]
    dsimp only []
    rw [hk, List.range_succ_eq_map]
    simp only [List.map_cons, List.head?_cons, Nat.zero_mul, Nat.zero_add]
    rw [if_neg h3]

/-- Witness for C10 at a file of exactly one all-zero record: it parses, the
decoded observation number 0 is outside the open interval, and the function
returns 0. -/
theorem c10_obsnum_range_witness :
    get_obsnum (List.replicate 131328 0) = 0 :=
  (c10_obsnum_range (List.replicate 131328 0)).2
    (by rw [List.length_replicate]; decide)
    (by rw [List.length_replicate]; decide)
    (by decide)

/-- C4 counterexample: on the config `(a, q, (2 ** 62, 4))` — a field with
positive shape elements and a well-formed format, hence a valid LayoutSpec —
`np.prod` computes the repetition count in int64 and wraps `2 ** 64` to 0, so
the compiled record size is 0, while the claimed sum of primitive width times
the exact shape product is `8 * 2 ** 64`. -/
theorem c4_int64_wrap_counterexample :
    create_struct [("a", "q", [4611686018427387904, 4])] = .ok ⟨0, 0⟩ ∧
    (([("a", "q", [4611686018427387904, 4])] : List Field).map
      fun f => fmtWidth f.fmt * (f.shape.map Int.toNat).prod).sum = 8 * 2 ^ 64 := by
  constructor
  · rfl
  · decide

/-- C4 (amended): for every config of fields with positive shapes and
well-formed formats whose exact shape products stay strictly below `2 ^ 63`
(so numpy's int64 `prod` does not wrap), the compiled record size equals the
sum over fields of the format's packed byte width times the product of the
shape (1 for scalar fields, whose shape is `(1,)`). -/
theorem c4_record_size_sum_amended (cfg : List Field) (si : StructInfo)
    (hgood : ∀ f ∈ cfg,
      (∀ d ∈ f.shape, 0 < d) ∧ (fmtParse f.fmt.toList).isSome = true ∧
      (f.shape.map Int.toNat).prod < 2 ^ 63)
    (hcs : create_struct cfg = .ok si) :
    si.size =
      (cfg.map fun f => fmtWidth f.fmt * (f.shape.map Int.toNat).prod).sum := by
  have hshapes := create_struct_shapes cfg si hcs
  have heq := create_struct_eq cfg hshapes (fun f hf => (hgood f hf).2.1)
  rw [hcs] at heq
  have hsi : si = ⟨recordSizeSum cfg, recordLeavesSum cfg⟩ := by
    injection heq
  rw [hsi]
  show recordSizeSum cfg = _
  unfold recordSizeSum
  congr 1
  apply List.map_congr_left
  intro f hf
  congr 1
  exact prodNat_eq_prod f.shape (fun d hd => (hgood f hf).1 d hd)
    (hgood f hf).2.2

/-- Witness for the amended C4 on the config `(a, q), (b, f, 4)`: the record
size 24 equals `8 * 1 + 4 * 4`. -/
theorem c4_record_size_sum_witness :
    (⟨24, 5⟩ : StructInfo).size =
      (([("a", "q", [1]), ("b", "f", [4])] : List Field).map
        fun f => fmtWidth f.fmt * (f.shape.map Int.toNat).prod).sum :=
  c4_record_size_sum_amended [("a", "q", [1]), ("b", "f", [4])] ⟨24, 5⟩
    (by decide) (by rfl)

/-- C1 counterexample: a config with the field name `a` occurring twice
constructs successfully (no exception at all): `parse_config` inserts into an
ordered dictionary, so the repeated name silently keeps the last definition
instead of failing as the claim requires. -/
theorem c1_duplicate_name_accepted :
    ((init false false
      [[.vstr "a", .vstr "q"], [.vstr "a", .vstr "l"]]).2).isOk = true := by
  decide

/-- C1 (amended): construction fails when any tuple has the wrong arity
(ValueError from `parse_config`), and fails when any field of the parsed
config has a format the dtype mapping does not recognize (ValueError, raised
while the empty dataset is created, still within construction); duplicate
names and non-positive shape elements are not rejected by the converter. -/
theorem c1_layout_validation_amended :
    (∀ (config : List (List PyVal)) (item : List PyVal),
        item ∈ config → ¬ (2 ≤ item.length ∧ item.length ≤ 3) →
        ∃ e, (init false false config).2 = .error e) ∧
    (∀ (config : List (List PyVal)) (cfg : List Field) (f : Field),
        parse_config config = .ok cfg → f ∈ cfg →
        convert_fmt_to_dtype f.fmt = .error .valueError →
        ∃ e, (init false false config).2 = .error e) := by
  constructor
  · intro config item hmem harity
    obtain ⟨e, he⟩ := parseConfigAux_error config [] item hmem harity
    refine ⟨e, ?_⟩
    unfold init parse_config
    rw [if_neg (by simp), he]
  · intro config cfg f hp hf hdt
    unfold init
    rw [if_neg (by simp), hp]
    dsimp only []
    cases hcs : create_struct cfg with
    | error e =>
      exact ⟨e, rfl⟩
    | ok si =>
      dsimp only []
      obtain ⟨e, he⟩ :=
        createVars_error "t" cfg f hf hdt ⟨[⟨"t", none⟩], []⟩
      refine ⟨e, ?_⟩
      have h2 : (create_empty_dataset "t" cfg).2 = .error e := by
        unfold create_empty_dataset
        dsimp only []
        exact he
      have hpair : create_empty_dataset "t" cfg =
          ((create_empty_dataset "t" cfg).1, Except.error e) := by
        rw [← h2]
      rw [hpair]

/-- Witness for the amended C1: a one-element tuple fails construction, and a
config whose only field has the unrecognized format `Z` fails construction. -/
theorem c1_layout_validation_witness :
    (∃ e, (init false false [[.vstr "a"]]).2 = .error e) ∧
    (∃ e, (init false false [[.vstr "a", .vstr "Z"]]).2 = .error e) :=
  ⟨c1_layout_validation_amended.1 [[.vstr "a"]] [.vstr "a"]
      (by decide) (by decide),
   c1_layout_validation_amended.2 [[.vstr "a", .vstr "Z"]]
      [("a", "Z", [1])] ("a", "Z", [1]) (by rfl) (by decide) (by rfl)⟩

/-- C6 counterexample: a field declared with the explicit shape `(1,)` — a
non-empty shape, for which the claim requires a variable of rank
`1 + 1 = 2` — produces a converter whose only variable has the single
dimension `t`, i.e. rank 1: shape `(1,)` is the code's encoding of a scalar
and is not given trailing dimensions. -/
theorem c6_shape_one_rank :
    (init false false [[.vstr "a", .vstr "q", .vtup [1]]]).2 = .ok stAQ1 ∧
    stAQ1.dataset.vars.map (fun v => v.dims.length) = [1] := by
  constructor
  · rfl
  · rfl

/-- C6 (amended): for every successfully constructed converter, the dataset
contains exactly the unlimited dimension `t` followed by, for each field with
shape other than `(1,)`, one fixed dimension per shape element named
`{name}_dim{i}` and sized by that element; and exactly one variable per field,
over `(t,)` alone when the shape is `(1,)` (the encoding of scalars), and over
`t` plus the field's dimensions — rank `1 + len(shape)` — otherwise. -/
theorem c6_schema_derivation_amended (raw : List (List PyVal)) (st : ConvState)
    (h : (init false false raw).2 = .ok st) :
    st.dataset.dims = ⟨"t", none⟩ :: st.config.flatMap dimsOf ∧
    st.dataset.vars = st.config.map (varOf "t") ∧
    (∀ f ∈ st.config, f.shape ≠ [1] →
      (varOf "t" f).dims.length = 1 + f.shape.length ∧
      dimsOf f = List.map (fun p => (⟨p.1, some p.2⟩ : NCDim))
        ((dimNames f.name f.shape).zip f.shape)) := by
  obtain ⟨hp, hc, hd, hn⟩ := init_ok _ _ _ _ h
  have hcv : (createVars "t" st.config ⟨[⟨"t", none⟩], []⟩).2 = .ok st.dataset := by
    unfold create_empty_dataset at hd
    dsimp only [] at hd
    exact hd
  obtain ⟨hdims, hvars, _⟩ := createVars_ok "t" st.config _ _ hcv
  refine ⟨?_, ?_, ?_⟩
  · rw [hdims]
    rfl
  · rw [hvars]
    rfl
  · intro f hf hsh
    constructor
    · simp [varOf, hsh, dimNames]
      omega
    · simp [dimsOf, hsh, fieldDims]

/-- Witness for the amended C6 on the config `(a, q), (b, f, 2)`: the scalar
field `a` gets the 1-D variable over `t`, the shaped field `b` gets the
dimension `b_dim0` of size 2 and a rank-2 variable. -/
theorem c6_schema_derivation_witness :
    stAQBF2.dataset.dims = ⟨"t", none⟩ :: stAQBF2.config.flatMap dimsOf ∧
    stAQBF2.dataset.vars = stAQBF2.config.map (varOf "t") ∧
    (∀ f ∈ stAQBF2.config, f.shape ≠ [1] →
      (varOf "t" f).dims.length = 1 + f.shape.length ∧
      dimsOf f = List.map (fun p => (⟨p.1, some p.2⟩ : NCDim))
        ((dimNames f.name f.shape).zip f.shape)) :=
  c6_schema_derivation_amended
    [[.vstr "a", .vstr "q"], [.vstr "b", .vstr "f", .vint 2]] stAQBF2 (by rfl)

end Devtools
